import Mathlib

/-!
Shallow embedding of the mock-anything method-stubbing library.

`MockLib` embeds `src/mock.ts` (the full stub engine), `src/restoreAll.ts`
(the restoration registry) and the companion condition-state helper
(`until.ts`, modelled from the spec since its source file is absent).
`IndexLib` embeds the reduced implementation in `src/index.ts`.
The external world visible to `until` predicates is an abstract type `W`
passed to every invocation of the replaced method.
-/

set_option maxHeartbeats 1000000

deriving instance DecidableEq for Except

namespace MockLib

/-- JavaScript-like runtime values. Objects carry an identity `id` and a
`payload` standing in for their structural content, so that two objects with
equal payloads but different ids model structurally-equal but distinct
instances. -/
inductive JVal : Type where
  | undefined : JVal
  | num : Int → JVal
  | str : String → JVal
  | jbool : Bool → JVal
  | promise : JVal → JVal
  | obj : Nat → String → JVal
  deriving DecidableEq, Repr

/-- `Object.is` on `JVal`: primitive values compare structurally, objects
compare by identity (their `id`), never by payload. -/
def jsObjectIs : JVal → JVal → Bool
  | .undefined, .undefined => true
  | .num a, .num b => a == b
  | .str a, .str b => a == b
  | .jbool a, .jbool b => a == b
  | .promise a, .promise b => jsObjectIs a b
  | .obj i _, .obj j _ => i == j
  | _, _ => false

/-- A configured behavior. The closures installed by the fluent surface of
mock.ts ignore the call arguments and either return a fixed value, throw a
fixed error, or return an already-resolved promise. -/
inductive Rule : Type where
  | returns : JVal → Rule
  | throws : String → Rule
  | resolves : JVal → Rule
  deriving DecidableEq, Repr

/-- Firing a rule: produce the value, raise the error, or produce the
resolved promise. -/
def Rule.fire : Rule → Except String JVal
  | .returns v => .ok v
  | .throws e => .error e
  | .resolves v => .ok (.promise v)

/-- Fire an optional rule; an absent rule produces `undefined`. -/
def fireOpt : Option Rule → Except String JVal
  | some r => r.fire
  | none => .ok .undefined

/-- Modelled from the spec: the condition state held by the missing
`until.ts` — a zero-argument predicate (a function of the external world
`W`), an optional positive cap, a non-negative hit counter, and the
configured rule. -/
structure UntilState (W : Type) where
  pred : W → Bool
  maxHits : Option Nat
  hits : Nat
  impl : Option Rule

/-- Modelled from the spec: `createUntilState` of the missing `until.ts` —
a fresh until-state (hits reset to 0) with the given predicate and optional
cap, and no rule configured yet. -/
def createUntilState {W : Type} (p : W → Bool) (maxCalls : Option Nat) : UntilState W :=
  { pred := p, maxHits := maxCalls, hits := 0, impl := none }

/-- Modelled from the spec: `shouldApplyUntil` of the missing `until.ts` —
the until behavior applies when its predicate currently evaluates true. -/
def shouldApplyUntil {W : Type} (u : UntilState W) (w : W) : Bool :=
  u.pred w

/-- Modelled from the spec: `applyUntil` of the missing `until.ts` —
increment the hit counter; if `maxHits` is set and hits now exceeds it, fail
with the `UntilExceeded` error (message observed in the test suite);
otherwise fire the configured rule, or produce `undefined` if none was
configured. -/
def applyUntil {W : Type} (u : UntilState W) : Except String JVal × UntilState W :=
  let u' := { u with hits := u.hits + 1 }
  match u'.maxHits with
  | some m =>
    if u'.hits > m then
      (.error ("until() exceeded maxCalls (" ++ toString m ++ ")"), u')
    else
      (fireOpt u'.impl, u')
  | none => (fireOpt u'.impl, u')

/-- Modelled from the spec: `resetUntil` of the missing `until.ts` — clear
only the hit counter, keeping the predicate, cap and rule. -/
def resetUntil {W : Type} (u : UntilState W) : UntilState W :=
  { u with hits := 0 }

/-- The transient configuration tag set by a modifier call and consumed by
the next terminal `returns`/`throws`/`resolves`. -/
inductive PendingMode : Type where
  | once : PendingMode
  | times : Nat → PendingMode
  | onCall : Nat → PendingMode
  | untilMode : PendingMode
  deriving DecidableEq, Repr

/-- The mutable state closed over by one `mock(target, key)` call in
mock.ts: counters, log, and every behavior slot. -/
structure StubState (W : Type) where
  callCount : Nat
  callArgs : List (List JVal)
  implementation : Rule
  onceImplementation : Option Rule
  timesRemaining : Option Nat
  timesImplementation : Option Rule
  onCallMap : List (Nat × Rule)
  untilState : Option (UntilState W)
  pendingMode : Option PendingMode
  argRules : List (List JVal × Rule)

/-- The state right after `mock(target, key)` runs: zero calls, default
behavior returning `undefined`, every other slot empty. -/
def initStub {W : Type} : StubState W :=
  { callCount := 0, callArgs := [], implementation := .returns .undefined,
    onceImplementation := none, timesRemaining := none,
    timesImplementation := none, onCallMap := [], untilState := none,
    pendingMode := none, argRules := [] }

/-- `Map.set` of the `onCallMap`: overwrite the entry for the key if
present, otherwise append. -/
def mapSet (m : List (Nat × Rule)) (k : Nat) (r : Rule) : List (Nat × Rule) :=
  match m with
  | [] => [(k, r)]
  | (k', r') :: rest =>
    if k' = k then (k, r) :: rest else (k', r') :: mapSet rest k r

/-- `Map.get`/`Map.has` of the `onCallMap`. -/
def mapGet (m : List (Nat × Rule)) (k : Nat) : Option Rule :=
  match m with
  | [] => none
  | (k', r) :: rest => if k' = k then some r else mapGet rest k

/-- `argsMatch` from mock.ts: same length and ordered pairwise `Object.is`
equality. -/
def argsMatch (a b : List JVal) : Bool :=
  a.length == b.length && (a.zip b).all fun p => jsObjectIs p.1 p.2

/-- Steps (e)–(f) of the interception procedure: the first `argRules` entry
whose expected arguments match fires, otherwise the default behavior. -/
def resolveArgRules {W : Type} (args : List JVal) (s : StubState W) : Except String JVal :=
  match s.argRules.find? (fun rule => argsMatch rule.1 args) with
  | some rule => rule.2.fire
  | none => s.implementation.fire

/-- Step (d) of the interception procedure: the until behavior, when present
and its predicate holds, else fall through to `argRules`/default. -/
def untilStep {W : Type} (w : W) (args : List JVal) (s : StubState W) :
    Except String JVal × StubState W :=
  match s.untilState with
  | some u =>
    if shouldApplyUntil u w then
      let r := applyUntil u
      (r.1, { s with untilState := some r.2 })
    else
      (resolveArgRules args s, s)
  | none => (resolveArgRules args s, s)

/-- Step (c): the times behavior while its remaining count is positive. -/
def timesStep {W : Type} (w : W) (args : List JVal) (s : StubState W) :
    Except String JVal × StubState W :=
  match s.timesRemaining, s.timesImplementation with
  | some k, some r =>
    if 0 < k then (r.fire, { s with timesRemaining := some (k - 1) })
    else untilStep w args s
  | some _, none => untilStep w args s
  | none, _ => untilStep w args s

/-- Step (b): the once behavior, consumed as it fires. -/
def onceStep {W : Type} (w : W) (args : List JVal) (s : StubState W) :
    Except String JVal × StubState W :=
  match s.onceImplementation with
  | some r => (r.fire, { s with onceImplementation := none })
  | none => timesStep w args s

/-- The interception procedure `mocker` of mock.ts: increment the count and
append to the log unconditionally, then resolve by strict precedence
onCall, once, times, until, argRules, default — first match wins. -/
def mocker {W : Type} (w : W) (args : List JVal) (s : StubState W) :
    Except String JVal × StubState W :=
  let s' := { s with callCount := s.callCount + 1,
                     callArgs := s.callArgs ++ [args] }
  match mapGet s'.onCallMap s'.callCount with
  | some r => (r.fire, s')
  | none => onceStep w args s'

/-- Fluent `once()`: arm the pending mode. -/
def once {W : Type} (s : StubState W) : StubState W :=
  { s with pendingMode := some .once }

/-- Fluent `times(n)`: reject a non-positive-integer count with
`InvalidArgument` before touching any state, else arm the pending mode. -/
def times {W : Type} (n : ℚ) (s : StubState W) : Option String × StubState W :=
  if n.den ≠ 1 ∨ n ≤ 0 then
    (some "times(n) expects a positive integer", s)
  else
    (none, { s with pendingMode := some (.times n.num.toNat) })

/-- Fluent `onCall(n)`: reject a non-positive-integer index with
`InvalidArgument` before touching any state, else arm the pending mode. -/
def onCall {W : Type} (n : ℚ) (s : StubState W) : Option String × StubState W :=
  if n.den ≠ 1 ∨ n ≤ 0 then
    (some "onCall(n) expects a positive integer", s)
  else
    (none, { s with pendingMode := some (.onCall n.num.toNat) })

/-- Fluent `until(predicate, maxCalls?)`: install a fresh until-state and
arm the pending mode. -/
def untilCfg {W : Type} (p : W → Bool) (maxCalls : Option Nat) (s : StubState W) :
    StubState W :=
  { s with untilState := some (createUntilState p maxCalls),
           pendingMode := some .untilMode }

/-- The shared body of the terminal calls `returns`/`throws`/`resolves`:
consult the pending mode, install the rule into the pending slot, clear the
mode; with no pending mode overwrite the default behavior. -/
def installRule {W : Type} (r : Rule) (s : StubState W) : StubState W :=
  match s.pendingMode with
  | some (.onCall i) =>
    { s with onCallMap := mapSet s.onCallMap i r, pendingMode := none }
  | some .once =>
    { s with onceImplementation := some r, pendingMode := none }
  | some (.times c) =>
    { s with timesRemaining := some c, timesImplementation := some r,
             pendingMode := none }
  | some .untilMode =>
    match s.untilState with
    | some u =>
      { s with untilState := some { u with impl := some r }, pendingMode := none }
    | none => { s with implementation := r }
  | none => { s with implementation := r }

/-- Terminal `returns(value)`. -/
def returns {W : Type} (v : JVal) (s : StubState W) : StubState W :=
  installRule (.returns v) s

/-- Terminal `throws(error)`. -/
def throws {W : Type} (e : String) (s : StubState W) : StubState W :=
  installRule (.throws e) s

/-- Terminal `resolves(value)`. -/
def resolves {W : Type} (v : JVal) (s : StubState W) : StubState W :=
  installRule (.resolves v) s

/-- `withArgs(...expected).returns(value)`: append an argument rule,
bypassing the pending mode. -/
def withArgsReturns {W : Type} (expected : List JVal) (v : JVal) (s : StubState W) :
    StubState W :=
  { s with argRules := s.argRules ++ [(expected, .returns v)] }

/-- `withArgs(...expected).throws(error)`. -/
def withArgsThrows {W : Type} (expected : List JVal) (e : String) (s : StubState W) :
    StubState W :=
  { s with argRules := s.argRules ++ [(expected, .throws e)] }

/-- `withArgs(...expected).resolves(value)`. -/
def withArgsResolves {W : Type} (expected : List JVal) (v : JVal) (s : StubState W) :
    StubState W :=
  { s with argRules := s.argRules ++ [(expected, .resolves v)] }

/-- `reset()`: clear counters, log, consumable behaviors, the until hit
counter and the pending mode; leave everything else alone. -/
def reset {W : Type} (s : StubState W) : StubState W :=
  { s with callCount := 0, callArgs := [],
           onceImplementation := none, timesRemaining := none,
           timesImplementation := none, pendingMode := none,
           onCallMap := [],
           untilState := s.untilState.map resetUntil }

/-- `called()`. -/
def called {W : Type} (s : StubState W) : Nat :=
  s.callCount

/-- `calledArgs()` as a value (the aliasing behavior of `slice()` is
modelled separately, with an explicit store). -/
def calledArgs {W : Type} (s : StubState W) : List (List JVal) :=
  s.callArgs

/-- The C1 scenario stub: `onCall(1)` → A, `once()` → B, `times(2)` → C,
plain fallback → D, all configured before any call. -/
def precedenceStub : StubState Unit :=
  returns (.str "D")
    (returns (.str "C")
      ((times 2
        (returns (.str "B")
          (once
            (returns (.str "A")
              ((onCall 1 (initStub : StubState Unit)).2))))).2))

/-- The state after `n` further calls from `s` (fixed world and args). -/
def afterCalls {W : Type} (w : W) (args : List JVal) (s : StubState W) : Nat → StubState W
  | 0 => s
  | n + 1 => (mocker w args (afterCalls w args s n)).2

/-- The result of the `k`-th call (1-based) starting from `s`. -/
def nthCallResult {W : Type} (w : W) (args : List JVal) (s : StubState W) (k : Nat) :
    Except String JVal :=
  (mocker w args (afterCalls w args s (k - 1))).1

/-- The stable shape the C1 scenario reaches after four calls. -/
def precStable (n : Nat) : StubState Unit :=
  { callCount := n, callArgs := List.replicate n [],
    implementation := .returns (.str "D"), onceImplementation := none,
    timesRemaining := some 0, timesImplementation := some (.returns (.str "C")),
    onCallMap := [(1, .returns (.str "A"))], untilState := none,
    pendingMode := none, argRules := [] }

/-- The C2 scenario with no cap: an until rule returning "pending" whose
predicate holds at worlds 0 and 1 but not at world 2, fallback "done". -/
def untilStubA : StubState Nat :=
  returns (.str "done")
    (returns (.str "pending")
      (untilCfg (fun n : Nat => decide (n < 2)) none initStub))

def untilCallsA1 : Except String JVal × StubState Nat := mocker 0 [] untilStubA

def untilCallsA2 : Except String JVal × StubState Nat := mocker 1 [] untilCallsA1.2

def untilCallsA3 : Except String JVal × StubState Nat := mocker 2 [] untilCallsA2.2

/-- The C2 scenario with `maxCalls = 2`: an until rule returning "pending"
with an always-true predicate, fallback "done". -/
def untilStubB : StubState Nat :=
  returns (.str "done")
    (returns (.str "pending")
      (untilCfg (fun _ : Nat => true) (some 2) initStub))

def untilCallsB1 : Except String JVal × StubState Nat := mocker 0 [] untilStubB

def untilCallsB2 : Except String JVal × StubState Nat := mocker 0 [] untilCallsB1.2

def untilCallsB3 : Except String JVal × StubState Nat := mocker 0 [] untilCallsB2.2


/-- The C4 scenario stub: `withArgs(1,2)` → X, then `withArgs(2,2)` → Y,
fallback Z. -/
def withArgsStub : StubState Unit :=
  returns (.str "Z")
    (withArgsReturns [.num 2, .num 2] (.str "Y")
      (withArgsReturns [.num 1, .num 2] (.str "X") initStub))

/-- A stub whose only argument rule expects one specific object instance
(id 1, payload "payload"), fallback Z. -/
def objArgStub : StubState Unit :=
  returns (.str "Z")
    (withArgsReturns [.obj 1 "payload"] (.str "X") initStub)

/-- A stub with two argument rules for the same expected arguments, to
observe insertion order. -/
def dupRuleStub : StubState Unit :=
  returns (.str "Z")
    (withArgsReturns [.num 7] (.str "second")
      (withArgsReturns [.num 7] (.str "first") initStub))

/-- What currently occupies a target method slot: an original function
(identified by an id, with behavior supplied by an environment) or the
interception function of the stub with the given index. -/
inductive Impl : Type where
  | orig : Nat → Impl
  | mocker : Nat → Impl
  deriving DecidableEq, Repr

/-- One stub as created by `mock(target, key)`: the slot it patched, the
value it captured as `original`, and its mutable state. -/
structure StubRec (W : Type) where
  key : Nat
  origVal : Impl
  state : StubState W

/-- The process state: every method slot, every stub ever created (its
index is its identity), and the restoration registry of restoreAll.ts —
the set of registered restore actions in insertion order, one per stub. -/
structure Sys (W : Type) where
  slots : Nat → Impl
  stubs : List (StubRec W)
  registry : List Nat

/-- The pristine process: every slot holds its own original function. -/
def initSys {W : Type} : Sys W :=
  { slots := fun k => .orig k, stubs := [], registry := [] }

/-- `registerRestore` of restoreAll.ts: `Set.add`. -/
def registerRestore (sid : Nat) (reg : List Nat) : List Nat :=
  if sid ∈ reg then reg else reg ++ [sid]

/-- `unregisterRestore` of restoreAll.ts: `Set.delete`, a no-op when the
action is absent. -/
def unregisterRestore (sid : Nat) (reg : List Nat) : List Nat :=
  reg.erase sid

/-- `mock(target, key)`: capture the slot value, patch the slot with the
new stub's interception function, register its restore action. -/
def mock {W : Type} (k : Nat) (sys : Sys W) : Sys W :=
  let sid := sys.stubs.length
  { slots := fun k' => if k' = k then .mocker sid else sys.slots k',
    stubs := sys.stubs ++ [{ key := k, origVal := sys.slots k, state := initStub }],
    registry := registerRestore sid sys.registry }

/-- The `restoreFn` closure of stub `sid`: write the captured value back
onto the slot (nothing else). -/
def restoreFn {W : Type} (sid : Nat) (sys : Sys W) : Sys W :=
  match sys.stubs.get? sid with
  | some sr =>
    { sys with slots := fun k' => if k' = sr.key then sr.origVal else sys.slots k' }
  | none => sys

/-- The stub's `restore()`: run `restoreFn`, then unregister it. -/
def restore {W : Type} (sid : Nat) (sys : Sys W) : Sys W :=
  let s1 := restoreFn sid sys
  { s1 with registry := unregisterRestore sid s1.registry }

/-- `restoreAll()`: invoke every registered restore action in insertion
order, then clear the registry. -/
def restoreAll {W : Type} (sys : Sys W) : Sys W :=
  let s1 := sys.registry.foldl (fun acc sid => restoreFn sid acc) sys
  { s1 with registry := [] }

/-- Run a function over the state of stub `sid` (a fluent-surface call on
its handle); slots and registry are untouched. -/
def updStub {W : Type} (sid : Nat) (f : StubState W → StubState W) (sys : Sys W) :
    Sys W :=
  match sys.stubs.get? sid with
  | some sr => { sys with stubs := sys.stubs.set sid { sr with state := f sr.state } }
  | none => sys

/-- Calling `target[k](...args)`: dispatch on what the slot holds. `env`
gives every original function's behavior. -/
def invoke {W : Type} (env : Nat → List JVal → Except String JVal) (w : W)
    (k : Nat) (args : List JVal) (sys : Sys W) : Except String JVal × Sys W :=
  match sys.slots k with
  | .orig fid => (env fid args, sys)
  | .mocker sid =>
    match sys.stubs.get? sid with
    | some sr =>
      let r := mocker w args sr.state
      (r.1, { sys with stubs := sys.stubs.set sid { sr with state := r.2 } })
    | none => (.error "missing stub", sys)

/-- One fluent configuration call on a stub handle. -/
inductive CfgOp (W : Type) where
  | onceO : CfgOp W
  | timesO : ℚ → CfgOp W
  | onCallO : ℚ → CfgOp W
  | untilO : (W → Bool) → Option Nat → CfgOp W
  | returnsO : JVal → CfgOp W
  | throwsO : String → CfgOp W
  | resolvesO : JVal → CfgOp W
  | withArgsReturnsO : List JVal → JVal → CfgOp W
  | withArgsThrowsO : List JVal → String → CfgOp W
  | withArgsResolvesO : List JVal → JVal → CfgOp W
  | resetO : CfgOp W

/-- Apply a fluent configuration call to a stub state; a failing
`times`/`onCall` leaves the state as it was. -/
def applyCfgOp {W : Type} : CfgOp W → StubState W → StubState W
  | .onceO, s => once s
  | .timesO n, s => (times n s).2
  | .onCallO n, s => (onCall n s).2
  | .untilO p mc, s => untilCfg p mc s
  | .returnsO v, s => returns v s
  | .throwsO e, s => throws e s
  | .resolvesO v, s => resolves v s
  | .withArgsReturnsO ex v, s => withArgsReturns ex v s
  | .withArgsThrowsO ex e, s => withArgsThrows ex e s
  | .withArgsResolvesO ex v, s => withArgsResolves ex v s
  | .resetO, s => reset s

/-- One operation of a whole-process trace. -/
inductive SysOp (W : Type) where
  | mockO : Nat → SysOp W
  | cfgO : Nat → CfgOp W → SysOp W
  | callO : W → Nat → List JVal → SysOp W
  | restoreO : Nat → SysOp W
  | restoreAllO : SysOp W

/-- Apply one whole-process operation. -/
def applySysOp {W : Type} (env : Nat → List JVal → Except String JVal) :
    SysOp W → Sys W → Sys W
  | .mockO k, sys => mock k sys
  | .cfgO sid op, sys => updStub sid (applyCfgOp op) sys
  | .callO w k args, sys => (invoke env w k args sys).2
  | .restoreO sid, sys => restore sid sys
  | .restoreAllO, sys => restoreAll sys

/-- Run a whole-process trace from the pristine process. -/
def runSys {W : Type} (env : Nat → List JVal → Except String JVal)
    (ops : List (SysOp W)) : Sys W :=
  ops.foldl (fun sys op => applySysOp env op sys) initSys

/-- The keys of the `mock` creations of a trace, in order. -/
def mockKeys {W : Type} (ops : List (SysOp W)) : List Nat :=
  ops.filterMap fun op =>
    match op with
    | .mockO k => some k
    | _ => none

/-- The C7 heap model of the argument log: JavaScript arrays are references
into a store of list values; `callArgs` holds one reference per call. -/
structure ArgLog where
  store : List (List JVal)
  log : List Nat

/-- The log before any call. -/
def emptyLog : ArgLog :=
  { store := [], log := [] }

/-- One invocation's bookkeeping (`callArgs.push(args)`): the rest-parameter
allocates a fresh array holding `args`; its reference is appended. -/
def logCall (args : List JVal) (m : ArgLog) : ArgLog :=
  { store := m.store ++ [args], log := m.log ++ [m.store.length] }

/-- `calledArgs()` in the heap model: `callArgs.slice()` builds a fresh
outer array whose elements are the same inner references. -/
def calledArgsSnap (m : ArgLog) : List Nat :=
  m.log

/-- What a caller reads through a returned snapshot: each inner reference
dereferenced against the current store. -/
def readSnap (st : List (List JVal)) (snap : List Nat) : List (List JVal) :=
  snap.map fun i => st.getD i []

/-- Mutating one nested per-call array in place through its reference. -/
def mutateInner (i : Nat) (v : List JVal) (m : ArgLog) : ArgLog :=
  { m with store := m.store.set i v }

/-- The C7 scenario: three calls `f(1)`, `f(2)`, `f(3)`. -/
def argLog3 : ArgLog :=
  logCall [.num 3] (logCall [.num 2] (logCall [.num 1] emptyLog))

/-- The same three calls on the stub-state model. -/
def threeCallsStub : StubState Unit :=
  (mocker () [.num 3] (mocker () [.num 2] (mocker () [.num 1] initStub).2).2).2

/-- Whether the log length and the call counter agree — the C8 invariant. -/
def logInv {W : Type} (s : StubState W) : Prop :=
  s.callArgs.length = s.callCount


/-- One action on a single stub: a fluent configuration call on its handle
or an invocation of the stubbed method. -/
inductive StubAction (W : Type) where
  | cfg : CfgOp W → StubAction W
  | call : W → List JVal → StubAction W

/-- Apply an action in a process where the stub has index `sid` and patched
slot `k`. -/
def applyStubAction {W : Type} (env : Nat → List JVal → Except String JVal)
    (k sid : Nat) : StubAction W → Sys W → Sys W
  | .cfg op, sys => updStub sid (applyCfgOp op) sys
  | .call w args, sys => (invoke env w k args sys).2

/-- The C6 scenario: create one stub on slot 0 of the pristine process and
run a sequence of actions on it. -/
def runSingleStub {W : Type} (env : Nat → List JVal → Except String JVal)
    (acts : List (StubAction W)) : Sys W :=
  acts.foldl (fun sys a => applyStubAction env 0 0 a sys) (mock 0 initSys)

/-- The shape every reachable state of the C6 scenario has: slot 0 patched
by stub 0, every other slot untouched, exactly the one stub with its
captured original, and its restore action registered. -/
def singleStubShape {W : Type} (sys : Sys W) : Prop :=
  sys.slots = (fun k' => if k' = 0 then Impl.mocker 0 else .orig k') ∧
  sys.registry = [0] ∧
  ∃ st : StubState W, sys.stubs = [{ key := 0, origVal := .orig 0, state := st }]

/-- The record `mock(target, key)` appends for the new stub. -/
def mockRec {W : Type} (k : Nat) (sys : Sys W) : StubRec W :=
  { key := k, origVal := sys.slots k, state := initStub }

/-- The keys of the stubs of a process, in creation order. -/
def stubKeys {W : Type} (sys : Sys W) : List Nat :=
  sys.stubs.map StubRec.key

/-- The invariant of whole-process traces whose stub creations are on
pairwise-distinct slots: every stub captured the true original of its slot;
every slot holds its original or the interception function of a registered
stub for that slot; every registered action belongs to a created stub. -/
def sysInv {W : Type} (sys : Sys W) : Prop :=
  (∀ sr ∈ sys.stubs, sr.origVal = .orig sr.key) ∧
  (∀ k, sys.slots k = .orig k ∨
    ∃ sid sr, sys.stubs.get? sid = some sr ∧ sr.key = k ∧ sid ∈ sys.registry ∧
      sys.slots k = .mocker sid) ∧
  (∀ sid ∈ sys.registry, sid < sys.stubs.length)

end MockLib

namespace IndexLib

open MockLib (JVal Rule)

/-- The mutable state closed over by one `mock(target, key)` call in
index.ts: a call counter, the default behavior, a once slot with its arming
flag, and the argument rules. -/
structure IndexState where
  callCount : Nat
  implementation : Rule
  onceImplementation : Option Rule
  onceMode : Bool
  argRules : List (List JVal × Rule)

/-- The state right after index.ts `mock(target, key)` runs. -/
def initIndex : IndexState :=
  { callCount := 0, implementation := .returns .undefined,
    onceImplementation := none, onceMode := false, argRules := [] }

/-- index.ts resolution after the once check: first matching argument rule,
else the default behavior. -/
def resolveArgRules (args : List JVal) (s : IndexState) : Except String JVal :=
  match s.argRules.find? (fun rule => MockLib.argsMatch rule.1 args) with
  | some rule => rule.2.fire
  | none => s.implementation.fire

/-- The interception procedure of index.ts: the once rule fires only when
this call is the very first call overall, and is never cleared. -/
def mocker (args : List JVal) (s : IndexState) : Except String JVal × IndexState :=
  let s' := { s with callCount := s.callCount + 1 }
  if s'.callCount = 1 then
    match s'.onceImplementation with
    | some r => (r.fire, s')
    | none => (resolveArgRules args s', s')
  else
    (resolveArgRules args s', s')

/-- index.ts `once()`: raise the arming flag. -/
def once (s : IndexState) : IndexState :=
  { s with onceMode := true }

/-- index.ts terminal calls: consume the arming flag or overwrite the
default. -/
def installRule (r : Rule) (s : IndexState) : IndexState :=
  if s.onceMode then { s with onceImplementation := some r, onceMode := false }
  else { s with implementation := r }

/-- index.ts `returns(value)`. -/
def returns (v : JVal) (s : IndexState) : IndexState :=
  installRule (.returns v) s

/-- index.ts `throws(error)`. -/
def throws (e : String) (s : IndexState) : IndexState :=
  installRule (.throws e) s

/-- index.ts `resolves(value)`. -/
def resolves (v : JVal) (s : IndexState) : IndexState :=
  installRule (.resolves v) s

/-- index.ts `withArgs(...).returns(value)`. -/
def withArgsReturns (expected : List JVal) (v : JVal) (s : IndexState) : IndexState :=
  { s with argRules := s.argRules ++ [(expected, .returns v)] }

/-- index.ts `withArgs(...).throws(error)`. -/
def withArgsThrows (expected : List JVal) (e : String) (s : IndexState) : IndexState :=
  { s with argRules := s.argRules ++ [(expected, .throws e)] }

/-- index.ts `withArgs(...).resolves(value)`. -/
def withArgsResolves (expected : List JVal) (v : JVal) (s : IndexState) : IndexState :=
  { s with argRules := s.argRules ++ [(expected, .resolves v)] }

/-- index.ts `called()`. -/
def called (s : IndexState) : Nat :=
  s.callCount

end IndexLib

namespace Shared

/-- One operation of the public surface shared by index.ts and mock.ts:
`once`, `withArgs`, the terminals, `called`, `restore`, and invocation of
the replaced method. -/
inductive SharedOp where
  | onceS : SharedOp
  | returnsS : MockLib.JVal → SharedOp
  | throwsS : String → SharedOp
  | resolvesS : MockLib.JVal → SharedOp
  | withArgsReturnsS : List MockLib.JVal → MockLib.JVal → SharedOp
  | withArgsThrowsS : List MockLib.JVal → String → SharedOp
  | withArgsResolvesS : List MockLib.JVal → MockLib.JVal → SharedOp
  | calledS : SharedOp
  | restoreS : SharedOp
  | invokeS : List MockLib.JVal → SharedOp

/-- An observable outcome: an invocation result or a `called()` count. -/
inductive Obs where
  | res : Except String MockLib.JVal → Obs
  | count : Nat → Obs
  deriving DecidableEq, Repr

/-- One shared operation on the index.ts implementation. The Bool is the
restored flag: after `restore()` an invocation runs the original `orig`
and touches nothing. -/
def stepIndex (orig : List MockLib.JVal → Except String MockLib.JVal) :
    SharedOp → IndexLib.IndexState × Bool → List Obs × (IndexLib.IndexState × Bool)
  | .onceS, (s, r) => ([], (IndexLib.once s, r))
  | .returnsS v, (s, r) => ([], (IndexLib.returns v s, r))
  | .throwsS e, (s, r) => ([], (IndexLib.throws e s, r))
  | .resolvesS v, (s, r) => ([], (IndexLib.resolves v s, r))
  | .withArgsReturnsS ex v, (s, r) => ([], (IndexLib.withArgsReturns ex v s, r))
  | .withArgsThrowsS ex e, (s, r) => ([], (IndexLib.withArgsThrows ex e s, r))
  | .withArgsResolvesS ex v, (s, r) => ([], (IndexLib.withArgsResolves ex v s, r))
  | .calledS, (s, r) => ([.count (IndexLib.called s)], (s, r))
  | .restoreS, (s, _) => ([], (s, true))
  | .invokeS args, (s, r) =>
    if r then ([.res (orig args)], (s, r))
    else
      let p := IndexLib.mocker args s
      ([.res p.1], (p.2, r))

/-- One shared operation on the mock.ts implementation (world `Unit`). -/
def stepMock (orig : List MockLib.JVal → Except String MockLib.JVal) :
    SharedOp → MockLib.StubState Unit × Bool → List Obs × (MockLib.StubState Unit × Bool)
  | .onceS, (s, r) => ([], (MockLib.once s, r))
  | .returnsS v, (s, r) => ([], (MockLib.returns v s, r))
  | .throwsS e, (s, r) => ([], (MockLib.throws e s, r))
  | .resolvesS v, (s, r) => ([], (MockLib.resolves v s, r))
  | .withArgsReturnsS ex v, (s, r) => ([], (MockLib.withArgsReturns ex v s, r))
  | .withArgsThrowsS ex e, (s, r) => ([], (MockLib.withArgsThrows ex e s, r))
  | .withArgsResolvesS ex v, (s, r) => ([], (MockLib.withArgsResolves ex v s, r))
  | .calledS, (s, r) => ([.count (MockLib.called s)], (s, r))
  | .restoreS, (s, _) => ([], (s, true))
  | .invokeS args, (s, r) =>
    if r then ([.res (orig args)], (s, r))
    else
      let p := MockLib.mocker () args s
      ([.res p.1], (p.2, r))

/-- Run a shared trace on index.ts from a given state. -/
def runIndexFrom (orig : List MockLib.JVal → Except String MockLib.JVal) :
    List SharedOp → IndexLib.IndexState × Bool → List Obs
  | [], _ => []
  | op :: ops, st =>
    let p := stepIndex orig op st
    p.1 ++ runIndexFrom orig ops p.2

/-- Run a shared trace on mock.ts from a given state. -/
def runMockFrom (orig : List MockLib.JVal → Except String MockLib.JVal) :
    List SharedOp → MockLib.StubState Unit × Bool → List Obs
  | [], _ => []
  | op :: ops, st =>
    let p := stepMock orig op st
    p.1 ++ runMockFrom orig ops p.2

/-- Run a shared trace on a fresh index.ts stub. -/
def runIndex (orig : List MockLib.JVal → Except String MockLib.JVal)
    (ops : List SharedOp) : List Obs :=
  runIndexFrom orig ops (IndexLib.initIndex, false)

/-- Run a shared trace on a fresh mock.ts stub. -/
def runMock (orig : List MockLib.JVal → Except String MockLib.JVal)
    (ops : List SharedOp) : List Obs :=
  runMockFrom orig ops (MockLib.initStub, false)

/-- Traces whose once-armings all complete before the first invocation:
scanning with (restored, invoked, once-pending), reject a `once()` after an
invocation and a terminal that would consume a pending once after an
invocation. -/
def sharedOk : Bool → Bool → Bool → List SharedOp → Bool
  | _, _, _, [] => true
  | r, i, p, op :: ops =>
    match op with
    | .onceS => !i && sharedOk r i true ops
    | .returnsS _ => !(p && i) && sharedOk r i false ops
    | .throwsS _ => !(p && i) && sharedOk r i false ops
    | .resolvesS _ => !(p && i) && sharedOk r i false ops
    | .invokeS _ => sharedOk r (i || !r) p ops
    | .restoreS => sharedOk true i p ops
    | _ => sharedOk r i p ops

/-- A pre-stub original used in concrete traces. -/
def orig0 : List MockLib.JVal → Except String MockLib.JVal :=
  fun _ => .ok (.num 7)

/-- The distinguishing trace: one call, then arm `once()` → B, then call
again. -/
def onceAfterCallTrace : List SharedOp :=
  [.invokeS [], .onceS, .returnsS (.str "B"), .invokeS []]

/-- A trace arming `once()` before any call, exercising the shared
surface. -/
def goodTrace : List SharedOp :=
  [.onceS, .returnsS (.str "B"), .returnsS (.str "D"), .invokeS [],
   .invokeS [], .calledS, .restoreS, .invokeS []]

/-- The simulation relation between the index.ts state and the mock.ts
state along shared traces (`i` records whether a non-restored invocation
has happened): counters, defaults and argument rules agree; the arming flag
mirrors the pending mode; the mock.ts-only slots are untouched; before any
real invocation the once slots agree; afterwards the mock.ts once slot is
consumed while the index.ts one may hold a dead rule. -/
def Rel (i : Bool) (si : IndexLib.IndexState) (sm : MockLib.StubState Unit) : Prop :=
  si.callCount = sm.callCount ∧
  si.implementation = sm.implementation ∧
  si.argRules = sm.argRules ∧
  (si.onceMode = true ↔ sm.pendingMode = some .once) ∧
  (sm.pendingMode = none ∨ sm.pendingMode = some .once) ∧
  sm.onCallMap = [] ∧
  sm.timesRemaining = none ∧
  sm.untilState = none ∧
  (i = false → si.callCount = 0 ∧ si.onceImplementation = sm.onceImplementation) ∧
  (i = true → sm.onceImplementation = none ∧ 1 ≤ si.callCount)

end Shared

namespace MockLib

/-- An environment of original behaviors used in concrete traces. -/
def env0 : Nat → List JVal → Except String JVal :=
  fun _ _ => .ok (.num 42)

/-- Two stubs created on the same target/method pair, then `restoreAll`. -/
def sameKeyTrace : List (SysOp Unit) :=
  [.mockO 0, .mockO 0, .restoreAllO]

/-- A trace creating stubs on two distinct slots, configuring and calling
them. -/
def distinctKeyTrace : List (SysOp Unit) :=
  [.mockO 0, .cfgO 0 (.returnsO (.str "m")), .mockO 1,
   .callO () 0 [], .callO () 1 []]

lemma mocker_precStable (n : Nat) (hn : 1 ≤ n) :
    mocker () [] (precStable n) =
      (.ok (.str "D"), precStable (n + 1)) := by
  have h1 : ¬ (1 = n + 1) := by omega
  simp [mocker, precStable, mapGet, h1, onceStep, timesStep, untilStep,
    resolveArgRules, Rule.fire, List.replicate_succ']

lemma afterCalls_precedenceStub (n : Nat) (hn : 4 ≤ n) :
    afterCalls () [] precedenceStub n = precStable n := by
  induction n with
  | zero => omega
  | succ m ih =>
    rcases Nat.lt_or_ge m 4 with hm | hm
    · interval_cases m
      · omega
      · omega
      · omega
      · rfl
    · have : afterCalls () [] precedenceStub (m + 1) =
          (mocker () [] (afterCalls () [] precedenceStub m)).2 := rfl
      rw [this, ih (by omega), mocker_precStable m (by omega)]

/-- Claim C1: with `onCall(1)` → A, `once()` → B, `times(2)` → C and a plain
fallback → D all configured before any call, the interception procedure
resolves each call index by the strict precedence onCall, once, times,
until, argRules, default — first match wins — so successive calls yield
A, B, C, C, D, D, D, ... -/
theorem C1_precedence_sequence (k : Nat) (hk : 1 ≤ k) :
    nthCallResult () [] precedenceStub k =
      .ok (if k = 1 then .str "A" else if k = 2 then .str "B"
           else if k ≤ 4 then .str "C" else .str "D") := by
  rcases Nat.lt_or_ge k 5 with h | h
  · interval_cases k
    · rfl
    · rfl
    · rfl
    · rfl
  · have h4 : 4 ≤ k - 1 := by omega
    have hst := afterCalls_precedenceStub (k - 1) h4
    have hres : nthCallResult () [] precedenceStub k =
        (mocker () [] (precStable (k - 1))).1 := by
      unfold nthCallResult
      rw [hst]
    rw [hres, mocker_precStable (k - 1) (by omega)]
    have h1 : ¬ k = 1 := by omega
    have h2 : ¬ k = 2 := by omega
    have h3 : ¬ k ≤ 4 := by omega
    simp [h1, h2, h3]

/-- Witness for C1 at call index 6 (the open-ended D tail). -/
theorem C1_precedence_sequence_witness :
    1 ≤ 6 ∧ nthCallResult () [] precedenceStub 6 = .ok (.str "D") := by
  refine ⟨by omega, ?_⟩
  have h := C1_precedence_sequence 6 (by omega)
  simpa using h

/-- Claim C2: with the predicate true exactly twice then false and no cap,
the first two calls apply the until rule and the third applies the
fallback; with `maxCalls = 2` and an always-true predicate, the third call
raises the `UntilExceeded` error, and the call count and argument log still
count that call — bookkeeping happens unconditionally before resolution. -/
theorem C2_until_predicate_and_cap :
    untilCallsA1.1 = .ok (.str "pending") ∧
    untilCallsA2.1 = .ok (.str "pending") ∧
    untilCallsA3.1 = .ok (.str "done") ∧
    untilCallsB1.1 = .ok (.str "pending") ∧
    untilCallsB2.1 = .ok (.str "pending") ∧
    untilCallsB3.1 = .error "until() exceeded maxCalls (2)" ∧
    called untilCallsB3.2 = 3 ∧
    calledArgs untilCallsB3.2 = [[], [], []] := by
  exact ⟨rfl, rfl, rfl, rfl, rfl, rfl, rfl, rfl⟩

lemma argsMatch_iff_forall2 (a b : List JVal) :
    argsMatch a b = true ↔ List.Forall₂ (fun x y => jsObjectIs x y = true) a b := by
  rw [List.forall₂_iff_zip]
  unfold argsMatch
  rw [Bool.and_eq_true, beq_iff_eq, List.all_eq_true]
  constructor
  · rintro ⟨h1, h2⟩
    refine ⟨h1, ?_⟩
    intro x y hm
    exact h2 (x, y) hm
  · rintro ⟨h1, h2⟩
    refine ⟨h1, ?_⟩
    intro q hm
    exact h2 hm

lemma withArgsStub_eq :
    withArgsStub =
      { callCount := 0, callArgs := [],
        implementation := .returns (.str "Z"), onceImplementation := none,
        timesRemaining := none, timesImplementation := none, onCallMap := [],
        untilState := none, pendingMode := none,
        argRules := [([.num 1, .num 2], .returns (.str "X")),
                     ([.num 2, .num 2], .returns (.str "Y"))] } := rfl

/-- Claim C4: an argument rule matches exactly when the two lists have the
same length and are pairwise `Object.is`-equal (value identity); lists of
different lengths never match; among matching rules the first in insertion
order fires; on the scenario stub, (1,2) yields X, (2,2) yields Y, any
non-matching argument list yields Z; a structurally-equal but distinct
object does not match. -/
theorem C4_withArgs_value_identity :
    (∀ a b, argsMatch a b = true ↔
      List.Forall₂ (fun x y => jsObjectIs x y = true) a b) ∧
    (∀ a b : List JVal, a.length ≠ b.length → argsMatch a b = false) ∧
    (mocker () [.num 1, .num 2] withArgsStub).1 = .ok (.str "X") ∧
    (mocker () [.num 2, .num 2] withArgsStub).1 = .ok (.str "Y") ∧
    (∀ args, argsMatch [.num 1, .num 2] args = false →
      argsMatch [.num 2, .num 2] args = false →
      (mocker () args withArgsStub).1 = .ok (.str "Z")) ∧
    (mocker () [.num 7] dupRuleStub).1 = .ok (.str "first") ∧
    ((.obj 1 "payload" : JVal) ≠ .obj 2 "payload") ∧
    (mocker () [.obj 2 "payload"] objArgStub).1 = .ok (.str "Z") := by
  refine ⟨argsMatch_iff_forall2, ?_, rfl, rfl, ?_, rfl, by decide, rfl⟩
  · intro a b h
    have hb : (a.length == b.length) = false := by
      simpa using h
    simp [argsMatch, hb]
  · intro args h1 h2
    rw [withArgsStub_eq]
    simp [mocker, mapGet, onceStep, timesStep, untilStep, resolveArgRules,
      List.find?, h1, h2, Rule.fire]

/-- Witness for C4 on the argument list (3,3), which matches neither
rule. -/
theorem C4_withArgs_value_identity_witness :
    ([.num 1] : List JVal).length ≠ ([] : List JVal).length ∧
    argsMatch [.num 1] [] = false ∧
    argsMatch [.num 1, .num 2] [.num 3, .num 3] = false ∧
    argsMatch [.num 2, .num 2] [.num 3, .num 3] = false ∧
    (mocker () [.num 3, .num 3] withArgsStub).1 = .ok (.str "Z") := by
  refine ⟨by decide, ?_, by decide, by decide, ?_⟩
  · exact C4_withArgs_value_identity.2.1 [.num 1] [] (by decide)
  · exact C4_withArgs_value_identity.2.2.2.2.1 [.num 3, .num 3]
      (by decide) (by decide)

/-- Claim C9: for every count that is not a positive integer (zero,
negative, or non-integer), `times(n)` and `onCall(n)` fail immediately at
configuration time with the `InvalidArgument` error, and the failing call
leaves the stub state exactly as it was. -/
theorem C9_invalid_count_rejected {W : Type} (n : ℚ) (s : StubState W)
    (hn : n.den ≠ 1 ∨ n ≤ 0) :
    times n s = (some "times(n) expects a positive integer", s) ∧
    onCall n s = (some "onCall(n) expects a positive integer", s) := by
  constructor
  · unfold times
    rw [if_pos hn]
  · unfold onCall
    rw [if_pos hn]

/-- Witness for C9 at `n = 0` on a fresh stub. -/
theorem C9_invalid_count_rejected_witness :
    (((0 : ℚ).den ≠ 1 ∨ (0 : ℚ) ≤ 0)) ∧
    times (0 : ℚ) (initStub : StubState Unit) =
      (some "times(n) expects a positive integer", initStub) ∧
    onCall (0 : ℚ) (initStub : StubState Unit) =
      (some "onCall(n) expects a positive integer", initStub) := by
  have h : (0 : ℚ).den ≠ 1 ∨ (0 : ℚ) ≤ 0 := Or.inr le_rfl
  have hc := @C9_invalid_count_rejected Unit 0 initStub h
  exact ⟨h, hc.1, hc.2⟩

/-- Claim C5: `reset()` zeroes the counter and log and clears the once,
times, onCall and pending-mode slots and the until hit counter, while the
default behavior, the argument rules, the captured original and the
patching of the target slot are untouched; `reset` twice equals `reset`
once. -/
theorem C5_reset_clears_and_preserves {W : Type} (s : StubState W) (sid : Nat)
    (sys : Sys W) :
    (reset s).callCount = 0 ∧
    (reset s).callArgs = [] ∧
    (reset s).onceImplementation = none ∧
    (reset s).timesRemaining = none ∧
    (reset s).timesImplementation = none ∧
    (reset s).onCallMap = [] ∧
    (reset s).pendingMode = none ∧
    (∀ u, s.untilState = some u →
      (reset s).untilState = some { u with hits := 0 }) ∧
    (s.untilState = none → (reset s).untilState = none) ∧
    (reset s).implementation = s.implementation ∧
    (reset s).argRules = s.argRules ∧
    reset (reset s) = reset s ∧
    (updStub sid reset sys).slots = sys.slots ∧
    (updStub sid reset sys).registry = sys.registry ∧
    (∀ sr, sys.stubs.get? sid = some sr →
      (updStub sid reset sys).stubs.get? sid =
        some { key := sr.key, origVal := sr.origVal, state := reset sr.state }) := by
  obtain ⟨cc, ca, im, oi, tr, ti, om, us, pm, ar⟩ := s
  refine ⟨rfl, rfl, rfl, rfl, rfl, rfl, rfl, ?_, ?_, rfl, rfl, ?_, ?_, ?_, ?_⟩
  · intro u hu
    cases hu
    rfl
  · intro hu
    cases hu
    rfl
  · cases us <;> rfl
  · unfold updStub
    cases h : sys.stubs.get? sid <;> rfl
  · unfold updStub
    cases h : sys.stubs.get? sid <;> rfl
  · intro sr h
    obtain ⟨hlt, -⟩ := List.get?_eq_some.mp h
    unfold updStub
    rw [h]
    cases sr
    rw [List.get?_eq_getElem?]
    exact List.getElem?_set_eq_of_lt _ hlt

lemma mocker_bookkeeping {W : Type} (w : W) (args : List JVal) (s : StubState W) :
    ((mocker w args s).2).callCount = s.callCount + 1 ∧
    ((mocker w args s).2).callArgs = s.callArgs ++ [args] := by
  obtain ⟨cc, ca, im, oi, tr, ti, om, us, pm, ar⟩ := s
  unfold mocker onceStep timesStep untilStep
  dsimp only
  constructor <;> (repeat' split) <;> rfl

lemma installRule_bookkeeping {W : Type} (r : Rule) (s : StubState W) :
    (installRule r s).callCount = s.callCount ∧
    (installRule r s).callArgs = s.callArgs := by
  obtain ⟨cc, ca, im, oi, tr, ti, om, us, pm, ar⟩ := s
  unfold installRule
  constructor <;> (repeat' split) <;> rfl

/-- Claim C8: `callArgumentLog.length == callCount` holds initially and is
preserved by every operation — each invocation appends one log entry as it
increments the count, every fluent configuration call, `reset()` and
`restore()` keep the pair in agreement. -/
theorem C8_log_matches_count {W : Type} (w : W) (args : List JVal) (n : ℚ)
    (p : W → Bool) (mc : Option Nat) (v : JVal) (e : String) (ex : List JVal)
    (sid : Nat) (sys : Sys W) (s : StubState W) (h : logInv s) :
    logInv (initStub : StubState W) ∧
    logInv (mocker w args s).2 ∧
    logInv (once s) ∧
    logInv (times n s).2 ∧
    logInv (onCall n s).2 ∧
    logInv (untilCfg p mc s) ∧
    logInv (returns v s) ∧
    logInv (throws e s) ∧
    logInv (resolves v s) ∧
    logInv (withArgsReturns ex v s) ∧
    logInv (withArgsThrows ex e s) ∧
    logInv (withArgsResolves ex v s) ∧
    logInv (reset s) ∧
    (restore sid sys).stubs = sys.stubs := by
  have hbk := mocker_bookkeeping w args s
  refine ⟨rfl, ?_, h, ?_, ?_, h, ?_, ?_, ?_, h, h, h, rfl, ?_⟩
  · unfold logInv at h ⊢
    rw [hbk.1, hbk.2]
    simp [h]
  · unfold times
    split
    · exact h
    · exact h
  · unfold onCall
    split
    · exact h
    · exact h
  · unfold logInv at h ⊢
    unfold returns
    rw [(installRule_bookkeeping (.returns v) s).1,
        (installRule_bookkeeping (.returns v) s).2]
    exact h
  · unfold logInv at h ⊢
    unfold throws
    rw [(installRule_bookkeeping (.throws e) s).1,
        (installRule_bookkeeping (.throws e) s).2]
    exact h
  · unfold logInv at h ⊢
    unfold resolves
    rw [(installRule_bookkeeping (.resolves v) s).1,
        (installRule_bookkeeping (.resolves v) s).2]
    exact h
  · show (restore sid sys).stubs = sys.stubs
    unfold restore restoreFn
    cases hg : sys.stubs.get? sid <;> rfl

/-- Witness for C8 on the three-call scenario state. -/
theorem C8_log_matches_count_witness :
    logInv threeCallsStub ∧ logInv (mocker () [] threeCallsStub).2 := by
  have h : logInv threeCallsStub := by
    unfold logInv
    rfl
  have hc := C8_log_matches_count () [] 1 (fun _ => true) none .undefined ""
    [] 0 initSys threeCallsStub h
  exact ⟨h, hc.2.1⟩

/-- Witness for C5 on the capped until scenario state after three calls and
a one-stub process. -/
theorem C5_reset_clears_and_preserves_witness :
    (untilCallsB3.2).untilState =
      some { pred := fun _ => true, maxHits := some 2, hits := 3,
             impl := some (.returns (.str "pending")) } ∧
    (reset untilCallsB3.2).untilState =
      some { pred := fun _ => true, maxHits := some 2, hits := 0,
             impl := some (.returns (.str "pending")) } ∧
    (mock 0 initSys : Sys Nat).stubs.get? 0 =
      some { key := 0, origVal := .orig 0, state := initStub } ∧
    (updStub 0 reset (mock 0 initSys) : Sys Nat).stubs.get? 0 =
      some { key := 0, origVal := .orig 0, state := reset initStub } := by
  have hu : (untilCallsB3.2).untilState =
      some { pred := fun _ => true, maxHits := some 2, hits := 3,
             impl := some (.returns (.str "pending")) } := rfl
  have hg : (mock 0 initSys : Sys Nat).stubs.get? 0 =
      some { key := 0, origVal := .orig 0, state := initStub } := rfl
  have hc := C5_reset_clears_and_preserves untilCallsB3.2 0 (mock 0 initSys)
  refine ⟨hu, ?_, hg, ?_⟩
  · exact hc.2.2.2.2.2.2.2.1 _ hu
  · exact hc.2.2.2.2.2.2.2.2.2.2.2.2.2.2 _ hg

lemma singleStubShape_mock {W : Type} : singleStubShape (mock 0 (initSys : Sys W)) := by
  refine ⟨?_, rfl, ⟨initStub, rfl⟩⟩
  funext k'
  rfl

lemma singleStubShape_step {W : Type} (env : Nat → List JVal → Except String JVal)
    (a : StubAction W) (sys : Sys W) (h : singleStubShape sys) :
    singleStubShape (applyStubAction env 0 0 a sys) := by
  obtain ⟨hs, hr, st, hst⟩ := h
  cases a with
  | cfg op =>
    refine ⟨?_, ?_, ⟨applyCfgOp op st, ?_⟩⟩
    · show (updStub 0 (applyCfgOp op) sys).slots = _
      unfold updStub
      rw [hst]
      exact hs
    · show (updStub 0 (applyCfgOp op) sys).registry = _
      unfold updStub
      rw [hst]
      exact hr
    · show (updStub 0 (applyCfgOp op) sys).stubs = _
      unfold updStub
      rw [hst]
      rfl
  | call w args =>
    refine ⟨?_, ?_, ⟨(mocker w args st).2, ?_⟩⟩
    · show ((invoke env w 0 args sys).2).slots = _
      unfold invoke
      rw [hs, hst]
      rfl
    · show ((invoke env w 0 args sys).2).registry = _
      unfold invoke
      rw [hs, hst]
      exact hr
    · show ((invoke env w 0 args sys).2).stubs = _
      unfold invoke
      rw [hs, hst]
      rfl

lemma singleStubShape_run {W : Type} (env : Nat → List JVal → Except String JVal)
    (acts : List (StubAction W)) : singleStubShape (runSingleStub env acts) := by
  unfold runSingleStub
  suffices h : ∀ sys : Sys W, singleStubShape sys →
      singleStubShape (acts.foldl (fun s a => applyStubAction env 0 0 a s) sys) by
    exact h _ singleStubShape_mock
  intro sys hsys
  induction acts generalizing sys with
  | nil => exact hsys
  | cons a rest ih =>
    rw [List.foldl_cons]
    exact ih _ (singleStubShape_step env a sys hsys)

lemma restore_single {W : Type} (sys : Sys W) (st : StubState W)
    (hst : sys.stubs = [{ key := 0, origVal := .orig 0, state := st }]) :
    (∀ k, (restore 0 sys).slots k = if k = 0 then .orig 0 else sys.slots k) ∧
    (restore 0 sys).registry = sys.registry.erase 0 ∧
    (restore 0 sys).stubs = sys.stubs := by
  unfold restore restoreFn unregisterRestore
  rw [hst]
  exact ⟨fun k => rfl, rfl, rfl⟩

/-- Claim C6: after any sequence of configurations and calls on the stub,
`restore()` writes the captured original back onto its slot and removes the
restore action from the registry; the next call to the method runs the
original — same result, no interception, no state change; a second
`restore()` is tolerated: the unregistration is a no-op and the slot keeps
the original. -/
theorem C6_restore_roundtrip {W : Type} (env : Nat → List JVal → Except String JVal)
    (acts : List (StubAction W)) (w : W) (args : List JVal) :
    (∀ k, (restore 0 (runSingleStub env acts)).slots k = .orig k) ∧
    (restore 0 (runSingleStub env acts)).registry = [] ∧
    invoke env w 0 args (restore 0 (runSingleStub env acts)) =
      (env 0 args, restore 0 (runSingleStub env acts)) ∧
    (∀ k, (restore 0 (restore 0 (runSingleStub env acts))).slots k = .orig k) ∧
    (restore 0 (restore 0 (runSingleStub env acts))).registry = [] ∧
    (restore 0 (restore 0 (runSingleStub env acts))).stubs =
      (restore 0 (runSingleStub env acts)).stubs := by
  obtain ⟨hs, hr, st, hst⟩ := singleStubShape_run env acts
  obtain ⟨h1, h2, h3⟩ := restore_single _ st hst
  have hall : ∀ k, (restore 0 (runSingleStub env acts)).slots k = .orig k := by
    intro k
    rw [h1 k]
    by_cases hk : k = 0
    · simp [hk]
    · simp [hk, hs]
  have hreg : (restore 0 (runSingleStub env acts)).registry = [] := by
    rw [h2, hr]
    rfl
  have hst2 : (restore 0 (runSingleStub env acts)).stubs =
      [{ key := 0, origVal := .orig 0, state := st }] := by
    rw [h3, hst]
  obtain ⟨g1, g2, g3⟩ := restore_single _ st hst2
  refine ⟨hall, hreg, ?_, ?_, ?_, g3⟩
  · unfold invoke
    rw [hall 0]
  · intro k
    rw [g1 k]
    by_cases hk : k = 0
    · simp [hk]
    · simp [hk, hall k]
  · rw [g2, hreg]
    rfl

lemma restoreFn_facts {W : Type} (sid : Nat) (sys : Sys W)
    (hA : ∀ sr ∈ sys.stubs, sr.origVal = .orig sr.key) :
    (restoreFn sid sys).stubs = sys.stubs ∧
    (restoreFn sid sys).registry = sys.registry ∧
    (∀ k, (restoreFn sid sys).slots k = sys.slots k ∨
          (restoreFn sid sys).slots k = .orig k) ∧
    (∀ sr, sys.stubs.get? sid = some sr →
      (restoreFn sid sys).slots sr.key = .orig sr.key) := by
  unfold restoreFn
  cases hg : sys.stubs.get? sid with
  | none =>
    refine ⟨rfl, rfl, fun k => Or.inl rfl, ?_⟩
    intro sr h
    exact Option.noConfusion h
  | some sr0 =>
    have ho := hA sr0 (List.get?_mem hg)
    refine ⟨rfl, rfl, ?_, ?_⟩
    · intro k
      by_cases hk : k = sr0.key
      · right
        show (if k = sr0.key then sr0.origVal else sys.slots k) = _
        rw [if_pos hk, ho, hk]
      · left
        show (if k = sr0.key then sr0.origVal else sys.slots k) = _
        rw [if_neg hk]
    · intro sr h
      cases Option.some.inj h
      show (if sr0.key = sr0.key then sr0.origVal else sys.slots sr0.key) = _
      rw [if_pos rfl, ho]

lemma foldl_restoreFn {W : Type} (l : List Nat) (sys : Sys W)
    (hA : ∀ sr ∈ sys.stubs, sr.origVal = .orig sr.key) :
    ((l.foldl (fun acc sid => restoreFn sid acc) sys).stubs = sys.stubs) ∧
    ((l.foldl (fun acc sid => restoreFn sid acc) sys).registry = sys.registry) ∧
    (∀ k, (l.foldl (fun acc sid => restoreFn sid acc) sys).slots k = sys.slots k ∨
          (l.foldl (fun acc sid => restoreFn sid acc) sys).slots k = .orig k) ∧
    (∀ sid ∈ l, ∀ sr, sys.stubs.get? sid = some sr →
      (l.foldl (fun acc sid => restoreFn sid acc) sys).slots sr.key = .orig sr.key) := by
  induction l generalizing sys with
  | nil =>
    refine ⟨rfl, rfl, fun k => Or.inl rfl, ?_⟩
    intro sid h
    exact absurd h (List.not_mem_nil sid)
  | cons a rest ih =>
    have hf := restoreFn_facts a sys hA
    have hA2 : ∀ sr ∈ (restoreFn a sys).stubs, sr.origVal = .orig sr.key := by
      rw [hf.1]
      exact hA
    have ihh := ih (restoreFn a sys) hA2
    rw [List.foldl_cons]
    refine ⟨?_, ?_, ?_, ?_⟩
    · rw [ihh.1, hf.1]
    · rw [ihh.2.1, hf.2.1]
    · intro k
      rcases ihh.2.2.1 k with h | h
      · rcases hf.2.2.1 k with h2 | h2
        · exact Or.inl (by rw [h, h2])
        · exact Or.inr (by rw [h, h2])
      · exact Or.inr h
    · intro sid hmem sr hget
      rcases List.mem_cons.mp hmem with hv | hmem2
      · subst hv
        have hmid := hf.2.2.2 sr hget
        rcases ihh.2.2.1 sr.key with h | h
        · rw [h, hmid]
        · exact h
      · have hget2 : (restoreFn a sys).stubs.get? sid = some sr := by
          rw [hf.1]
          exact hget
        exact ihh.2.2.2 sid hmem2 sr hget2

lemma restoreAll_inv {W : Type} (sys : Sys W) (hinv : sysInv sys) :
    (∀ k, (restoreAll sys).slots k = .orig k) ∧
    (restoreAll sys).registry = [] ∧
    (restoreAll sys).stubs = sys.stubs := by
  obtain ⟨hA, hB, hD⟩ := hinv
  have hf := foldl_restoreFn sys.registry sys hA
  refine ⟨?_, rfl, hf.1⟩
  intro k
  show (sys.registry.foldl (fun acc sid => restoreFn sid acc) sys).slots k = .orig k
  rcases hB k with h | ⟨sid, sr, hget, hkey, hmem, hm⟩
  · rcases hf.2.2.1 k with h2 | h2
    · rw [h2, h]
    · exact h2
  · have hdone := hf.2.2.2 sid hmem sr hget
    rw [hkey] at hdone
    exact hdone

lemma setState_inv {W : Type} (sys : Sys W) (sid : Nat) (sr x : StubRec W)
    (hget : sys.stubs.get? sid = some sr) (hkey : x.key = sr.key)
    (horig : x.origVal = sr.origVal) (hinv : sysInv sys) :
    sysInv { sys with stubs := sys.stubs.set sid x } ∧
    stubKeys { sys with stubs := sys.stubs.set sid x } = stubKeys sys := by
  obtain ⟨hA, hB, hD⟩ := hinv
  have hsr : sr ∈ sys.stubs := List.get?_mem hget
  have hlt : sid < sys.stubs.length := (List.get?_eq_some.mp hget).1
  constructor
  · refine ⟨?_, ?_, ?_⟩
    · intro sr2 hmem
      rcases List.mem_or_eq_of_mem_set hmem with h | hv
      · exact hA sr2 h
      · subst hv
        rw [horig, hkey]
        exact hA sr hsr
    · intro k
      rcases hB k with h | ⟨sid2, sr2, hget2, hkey2, hmem2, hm2⟩
      · exact Or.inl h
      · right
        by_cases hss : sid2 = sid
        · subst hss
          refine ⟨sid2, x, ?_, ?_, hmem2, hm2⟩
          · show (sys.stubs.set sid2 x).get? sid2 = some x
            rw [List.get?_eq_getElem?]
            exact List.getElem?_set_eq_of_lt _ hlt
          · rw [hget] at hget2
            cases Option.some.inj hget2
            rw [hkey]
            exact hkey2
        · refine ⟨sid2, sr2, ?_, hkey2, hmem2, hm2⟩
          show (sys.stubs.set sid x).get? sid2 = some sr2
          rw [List.get?_eq_getElem?, List.getElem?_set_ne (fun hv => hss hv.symm),
            ← List.get?_eq_getElem?]
          exact hget2
    · intro sid2 hmem2
      show sid2 < (sys.stubs.set sid x).length
      rw [List.length_set]
      exact hD sid2 hmem2
  · unfold stubKeys
    show (sys.stubs.set sid x).map StubRec.key = sys.stubs.map StubRec.key
    rw [List.map_set]
    apply List.ext_getElem?
    intro n
    by_cases hn : n = sid
    · subst hn
      have hm1 : ((sys.stubs.map StubRec.key).set n x.key)[n]? = some x.key := by
        apply List.getElem?_set_eq_of_lt
        rw [List.length_map]
        exact hlt
      have hm2 : (sys.stubs.map StubRec.key)[n]? = some sr.key := by
        rw [List.getElem?_map, ← List.get?_eq_getElem?, hget]
        rfl
      rw [hm1, hm2, hkey]
    · exact List.getElem?_set_ne (fun hv => hn hv.symm)

lemma sysInv_updStub {W : Type} (sid : Nat) (f : StubState W → StubState W)
    (sys : Sys W) (hinv : sysInv sys) :
    sysInv (updStub sid f sys) ∧ stubKeys (updStub sid f sys) = stubKeys sys := by
  unfold updStub
  cases hget : sys.stubs.get? sid with
  | none => exact ⟨hinv, rfl⟩
  | some sr =>
    exact setState_inv sys sid sr { sr with state := f sr.state } hget rfl rfl hinv

lemma sysInv_invoke {W : Type} (env : Nat → List JVal → Except String JVal) (w : W)
    (k : Nat) (args : List JVal) (sys : Sys W) (hinv : sysInv sys) :
    sysInv (invoke env w k args sys).2 ∧
    stubKeys (invoke env w k args sys).2 = stubKeys sys := by
  unfold invoke
  cases hs : sys.slots k with
  | orig fid => exact ⟨hinv, rfl⟩
  | mocker sid =>
    dsimp only
    cases hget : sys.stubs.get? sid with
    | none => exact ⟨hinv, rfl⟩
    | some sr =>
      exact setState_inv sys sid sr { sr with state := (mocker w args sr.state).2 }
        hget rfl rfl hinv

lemma sysInv_restore {W : Type} (sid : Nat) (sys : Sys W) (hinv : sysInv sys) :
    sysInv (restore sid sys) ∧ stubKeys (restore sid sys) = stubKeys sys := by
  obtain ⟨hA, hB, hD⟩ := hinv
  unfold restore restoreFn unregisterRestore
  cases hget : sys.stubs.get? sid with
  | none =>
    refine ⟨⟨hA, ?_, ?_⟩, rfl⟩
    · intro k
      rcases hB k with h | ⟨sid2, sr2, hget2, hkey2, hmem2, hm2⟩
      · exact Or.inl h
      · right
        have hne : sid2 ≠ sid := by
          intro hv
          rw [hv, hget] at hget2
          exact Option.noConfusion hget2
        exact ⟨sid2, sr2, hget2, hkey2, (List.mem_erase_of_ne hne).mpr hmem2, hm2⟩
    · intro sid2 hmem2
      exact hD sid2 (List.mem_of_mem_erase hmem2)
  | some sr =>
    have horig := hA sr (List.get?_mem hget)
    refine ⟨⟨hA, ?_, ?_⟩, rfl⟩
    · intro k
      by_cases hk : k = sr.key
      · left
        show (if k = sr.key then sr.origVal else sys.slots k) = _
        rw [if_pos hk, horig, hk]
      · rcases hB k with h | ⟨sid2, sr2, hget2, hkey2, hmem2, hm2⟩
        · left
          show (if k = sr.key then sr.origVal else sys.slots k) = _
          rw [if_neg hk]
          exact h
        · right
          have hne : sid2 ≠ sid := by
            intro hv
            subst hv
            rw [hget] at hget2
            cases Option.some.inj hget2
            exact hk hkey2.symm
          refine ⟨sid2, sr2, hget2, hkey2, (List.mem_erase_of_ne hne).mpr hmem2, ?_⟩
          show (if k = sr.key then sr.origVal else sys.slots k) = _
          rw [if_neg hk]
          exact hm2
    · intro sid2 hmem2
      exact hD sid2 (List.mem_of_mem_erase hmem2)

lemma sysInv_restoreAll {W : Type} (sys : Sys W) (hinv : sysInv sys) :
    sysInv (restoreAll sys) ∧ stubKeys (restoreAll sys) = stubKeys sys := by
  obtain ⟨h1, h2, h3⟩ := restoreAll_inv sys hinv
  refine ⟨⟨?_, ?_, ?_⟩, ?_⟩
  · rw [h3]
    exact hinv.1
  · intro k
    exact Or.inl (h1 k)
  · intro sid hmem
    rw [h2] at hmem
    exact absurd hmem (List.not_mem_nil sid)
  · unfold stubKeys
    rw [h3]

lemma sysInv_mock {W : Type} (k : Nat) (sys : Sys W) (hinv : sysInv sys)
    (hk : k ∉ stubKeys sys) :
    sysInv (mock k sys) ∧ stubKeys (mock k sys) = stubKeys sys ++ [k] := by
  obtain ⟨hA, hB, hD⟩ := hinv
  have hslot : sys.slots k = .orig k := by
    rcases hB k with h | ⟨sid, sr, hget, hkey, hmem, hm⟩
    · exact h
    · exfalso
      apply hk
      unfold stubKeys
      rw [← hkey]
      exact List.mem_map_of_mem StubRec.key (List.get?_mem hget)
  have hfresh : sys.stubs.length ∉ sys.registry := by
    intro hmem
    exact absurd (hD _ hmem) (lt_irrefl _)
  have hreg : registerRestore sys.stubs.length sys.registry =
      sys.registry ++ [sys.stubs.length] := by
    unfold registerRestore
    rw [if_neg hfresh]
  constructor
  · refine ⟨?_, ?_, ?_⟩
    · intro sr hmem
      have hmem2 : sr ∈ sys.stubs ++ [mockRec k sys] := hmem
      rcases List.mem_append.mp hmem2 with h | h
      · exact hA sr h
      · have hv := List.mem_singleton.mp h
        subst hv
        exact hslot
    · intro k2
      by_cases hkk : k2 = k
      · subst hkk
        right
        refine ⟨sys.stubs.length, mockRec k2 sys, ?_, rfl, ?_, ?_⟩
        · show (sys.stubs ++ [mockRec k2 sys]).get? sys.stubs.length = _
          rw [List.get?_eq_getElem?]
          exact List.getElem?_concat_length _ _
        · show sys.stubs.length ∈ registerRestore sys.stubs.length sys.registry
          rw [hreg]
          exact List.mem_append.mpr (Or.inr (List.mem_singleton.mpr rfl))
        · show (if k2 = k2 then Impl.mocker sys.stubs.length else sys.slots k2) = _
          rw [if_pos rfl]
      · rcases hB k2 with h | ⟨sid, sr, hget, hkey, hmem, hm⟩
        · left
          show (if k2 = k then Impl.mocker sys.stubs.length else sys.slots k2) = _
          rw [if_neg hkk]
          exact h
        · right
          have hlt : sid < sys.stubs.length := (List.get?_eq_some.mp hget).1
          refine ⟨sid, sr, ?_, hkey, ?_, ?_⟩
          · show (sys.stubs ++ [mockRec k sys]).get? sid = some sr
            rw [List.get?_eq_getElem?, List.getElem?_append_left hlt,
              ← List.get?_eq_getElem?]
            exact hget
          · show sid ∈ registerRestore sys.stubs.length sys.registry
            rw [hreg]
            exact List.mem_append.mpr (Or.inl hmem)
          · show (if k2 = k then Impl.mocker sys.stubs.length else sys.slots k2) = _
            rw [if_neg hkk]
            exact hm
    · intro sid hmem
      have hmem2 : sid ∈ sys.registry ++ [sys.stubs.length] := by
        rw [← hreg]
        exact hmem
      show sid < (sys.stubs ++ [mockRec k sys]).length
      rw [List.length_append, List.length_singleton]
      rcases List.mem_append.mp hmem2 with h | h
      · have := hD sid h
        omega
      · have := List.mem_singleton.mp h
        omega
  · show (sys.stubs ++ [mockRec k sys]).map StubRec.key = _
    rw [List.map_append]
    rfl

lemma sysInv_init {W : Type} : sysInv (initSys : Sys W) := by
  refine ⟨?_, fun k => Or.inl rfl, ?_⟩
  · intro sr h
    exact absurd h (List.not_mem_nil sr)
  · intro sid h
    exact absurd h (List.not_mem_nil sid)

lemma sysInv_run {W : Type} (env : Nat → List JVal → Except String JVal)
    (ops : List (SysOp W)) :
    ∀ sys : Sys W, sysInv sys → (stubKeys sys ++ mockKeys ops).Nodup →
      sysInv (ops.foldl (fun s op => applySysOp env op s) sys) ∧
      stubKeys (ops.foldl (fun s op => applySysOp env op s) sys) =
        stubKeys sys ++ mockKeys ops := by
  induction ops with
  | nil =>
    intro sys h _
    refine ⟨h, ?_⟩
    show stubKeys sys = stubKeys sys ++ mockKeys ([] : List (SysOp W))
    simp [mockKeys]
  | cons op rest ih =>
    intro sys hinv hnd
    rw [List.foldl_cons]
    cases op with
    | mockO k =>
      have hnd1 : (stubKeys sys ++ (k :: mockKeys rest)).Nodup := hnd
      have hk : k ∉ stubKeys sys := by
        intro hmem
        exact List.disjoint_of_nodup_append hnd1 hmem (List.mem_cons_self k _)
      obtain ⟨hinv2, hkeys2⟩ := sysInv_mock k sys hinv hk
      have hnd2 : (stubKeys (mock k sys) ++ mockKeys rest).Nodup := by
        rw [hkeys2, List.append_assoc]
        exact hnd1
      obtain ⟨hi, hk2⟩ := ih (mock k sys) hinv2 hnd2
      refine ⟨hi, ?_⟩
      show stubKeys (rest.foldl (fun s op => applySysOp env op s) (mock k sys)) =
        stubKeys sys ++ (k :: mockKeys rest)
      rw [hk2, hkeys2, List.append_assoc]
      rfl
    | cfgO sid op2 =>
      have hnd1 : (stubKeys sys ++ mockKeys rest).Nodup := hnd
      obtain ⟨hinv2, hkeys2⟩ := sysInv_updStub sid (applyCfgOp op2) sys hinv
      have hnd2 : (stubKeys (updStub sid (applyCfgOp op2) sys) ++ mockKeys rest).Nodup := by
        rw [hkeys2]
        exact hnd1
      obtain ⟨hi, hk2⟩ := ih _ hinv2 hnd2
      refine ⟨hi, ?_⟩
      show stubKeys (rest.foldl (fun s op => applySysOp env op s)
        (updStub sid (applyCfgOp op2) sys)) = stubKeys sys ++ mockKeys rest
      rw [hk2, hkeys2]
    | callO w k args =>
      have hnd1 : (stubKeys sys ++ mockKeys rest).Nodup := hnd
      obtain ⟨hinv2, hkeys2⟩ := sysInv_invoke env w k args sys hinv
      have hnd2 : (stubKeys (invoke env w k args sys).2 ++ mockKeys rest).Nodup := by
        rw [hkeys2]
        exact hnd1
      obtain ⟨hi, hk2⟩ := ih _ hinv2 hnd2
      refine ⟨hi, ?_⟩
      show stubKeys (rest.foldl (fun s op => applySysOp env op s)
        (invoke env w k args sys).2) = stubKeys sys ++ mockKeys rest
      rw [hk2, hkeys2]
    | restoreO sid =>
      have hnd1 : (stubKeys sys ++ mockKeys rest).Nodup := hnd
      obtain ⟨hinv2, hkeys2⟩ := sysInv_restore sid sys hinv
      have hnd2 : (stubKeys (restore sid sys) ++ mockKeys rest).Nodup := by
        rw [hkeys2]
        exact hnd1
      obtain ⟨hi, hk2⟩ := ih _ hinv2 hnd2
      refine ⟨hi, ?_⟩
      show stubKeys (rest.foldl (fun s op => applySysOp env op s)
        (restore sid sys)) = stubKeys sys ++ mockKeys rest
      rw [hk2, hkeys2]
    | restoreAllO =>
      have hnd1 : (stubKeys sys ++ mockKeys rest).Nodup := hnd
      obtain ⟨hinv2, hkeys2⟩ := sysInv_restoreAll sys hinv
      have hnd2 : (stubKeys (restoreAll sys) ++ mockKeys rest).Nodup := by
        rw [hkeys2]
        exact hnd1
      obtain ⟨hi, hk2⟩ := ih _ hinv2 hnd2
      refine ⟨hi, ?_⟩
      show stubKeys (rest.foldl (fun s op => applySysOp env op s)
        (restoreAll sys)) = stubKeys sys ++ mockKeys rest
      rw [hk2, hkeys2]

/-- Claim C3 (amended): for every trace whose stub creations are on
pairwise-distinct target/method slots, after `restoreAll()` no stub is
intercepting: every slot holds its original function and every call runs
it, the registry is empty, and a subsequent individual `restore()` on any
stub raises no error and leaves every slot at its original. -/
theorem C3_restoreAll_distinct_keys {W : Type}
    (env : Nat → List JVal → Except String JVal) (ops : List (SysOp W))
    (hnd : (mockKeys ops).Nodup) :
    (∀ k, (restoreAll (runSys env ops)).slots k = .orig k) ∧
    (restoreAll (runSys env ops)).registry = [] ∧
    (∀ w k args, invoke env w k args (restoreAll (runSys env ops)) =
      (env k args, restoreAll (runSys env ops))) ∧
    (∀ sid, (∀ k, (restore sid (restoreAll (runSys env ops))).slots k = .orig k) ∧
      (restore sid (restoreAll (runSys env ops))).registry = []) := by
  have hnd0 : (stubKeys (initSys : Sys W) ++ mockKeys ops).Nodup := by
    show ((List.map StubRec.key []) ++ mockKeys ops).Nodup
    simpa using hnd
  obtain ⟨hrun, -⟩ := sysInv_run env ops initSys sysInv_init hnd0
  obtain ⟨hall, hreg, hstubs⟩ := restoreAll_inv (runSys env ops) hrun
  refine ⟨hall, hreg, ?_, ?_⟩
  · intro w k args
    unfold invoke
    rw [hall k]
  · intro sid
    have hAX : ∀ sr ∈ (restoreAll (runSys env ops)).stubs,
        sr.origVal = .orig sr.key := by
      rw [hstubs]
      exact hrun.1
    have hf := restoreFn_facts sid (restoreAll (runSys env ops)) hAX
    constructor
    · intro k
      show (restoreFn sid (restoreAll (runSys env ops))).slots k = _
      rcases hf.2.2.1 k with h | h
      · rw [h]
        exact hall k
      · exact h
    · show ((restoreFn sid (restoreAll (runSys env ops))).registry).erase sid = []
      rw [hf.2.1, hreg]
      rfl

/-- Witness for C3 on a trace stubbing two distinct slots, configuring and
calling both. -/
theorem C3_restoreAll_distinct_keys_witness :
    (mockKeys distinctKeyTrace).Nodup ∧
    (restoreAll (runSys env0 distinctKeyTrace)).slots 0 = .orig 0 ∧
    (restoreAll (runSys env0 distinctKeyTrace)).slots 1 = .orig 1 ∧
    (restoreAll (runSys env0 distinctKeyTrace)).registry = [] := by
  have hnd : (mockKeys distinctKeyTrace).Nodup := by decide
  have h := C3_restoreAll_distinct_keys env0 distinctKeyTrace hnd
  exact ⟨hnd, h.1 0, h.1 1, h.2.1⟩

/-- Counterexample to C3 as stated: two stubs created on the same
target/method pair. `restoreAll()` runs the restore actions in insertion
order, so the second stub's captured "original" — the first stub's
interception function — is written back last: after `restoreAll()` the slot
still holds the first stub's mocker, and a call yields the stub default
`undefined` instead of the original's 42. -/
theorem C3_counterexample :
    (runSys env0 sameKeyTrace).slots 0 = .mocker 0 ∧
    (runSys env0 sameKeyTrace).registry = [] ∧
    (invoke env0 () 0 [] (runSys env0 sameKeyTrace)).1 = .ok .undefined ∧
    env0 0 [] = .ok (.num 42) := by
  exact ⟨rfl, rfl, rfl, rfl⟩

/-- Claim C7 (amended): after `f(1)`, `f(2)`, `f(3)`, `calledArgs()` reads
back `[[1],[2],[3]]` — one entry per call, in call order — and the returned
outer array is a fresh copy whose elements are the same inner references as
the internal log, so mutating a nested per-call list through the returned
structure changes what a subsequent `calledArgs()` returns. -/
theorem C7_calledArgs_snapshot :
    calledArgs threeCallsStub = [[.num 1], [.num 2], [.num 3]] ∧
    readSnap argLog3.store (calledArgsSnap argLog3) =
      [[.num 1], [.num 2], [.num 3]] ∧
    calledArgsSnap argLog3 = argLog3.log ∧
    readSnap (mutateInner 0 [.num 9] argLog3).store
        (calledArgsSnap (mutateInner 0 [.num 9] argLog3)) =
      [[.num 9], [.num 2], [.num 3]] := by
  exact ⟨rfl, rfl, rfl, rfl⟩

/-- Counterexample to C7 as stated: `calledArgs()` is `callArgs.slice()`, a
shallow copy, so the nested per-call lists alias internal storage: mutating
the first nested list through the returned reference changes the result of
the next `calledArgs()` from `[[1],[2],[3]]` to `[[9],[2],[3]]`. -/
theorem C7_counterexample :
    readSnap argLog3.store (calledArgsSnap argLog3) =
      [[.num 1], [.num 2], [.num 3]] ∧
    (calledArgsSnap argLog3).get? 0 = some 0 ∧
    readSnap (mutateInner 0 [.num 9] argLog3).store
        (calledArgsSnap (mutateInner 0 [.num 9] argLog3)) ≠
      readSnap argLog3.store (calledArgsSnap argLog3) := by
  exact ⟨rfl, rfl, by decide⟩

end MockLib

namespace Shared

lemma resolveArgRules_eq (args : List MockLib.JVal) (si : IndexLib.IndexState)
    (sm : MockLib.StubState Unit) (himpl : si.implementation = sm.implementation)
    (hrules : si.argRules = sm.argRules) :
    IndexLib.resolveArgRules args si = MockLib.resolveArgRules args sm := by
  unfold IndexLib.resolveArgRules MockLib.resolveArgRules
  rw [himpl, hrules]

lemma runIndexFrom_cons (orig : List MockLib.JVal → Except String MockLib.JVal)
    (op : SharedOp) (ops : List SharedOp) (st : IndexLib.IndexState × Bool) :
    runIndexFrom orig (op :: ops) st =
      (stepIndex orig op st).1 ++ runIndexFrom orig ops (stepIndex orig op st).2 := rfl

lemma runMockFrom_cons (orig : List MockLib.JVal → Except String MockLib.JVal)
    (op : SharedOp) (ops : List SharedOp) (st : MockLib.StubState Unit × Bool) :
    runMockFrom orig (op :: ops) st =
      (stepMock orig op st).1 ++ runMockFrom orig ops (stepMock orig op st).2 := rfl

lemma mocker_rel (args : List MockLib.JVal) (i : Bool) (si : IndexLib.IndexState)
    (sm : MockLib.StubState Unit) (h : Rel i si sm) :
    (IndexLib.mocker args si).1 = (MockLib.mocker () args sm).1 ∧
    Rel true (IndexLib.mocker args si).2 (MockLib.mocker () args sm).2 ∧
    (IndexLib.mocker args si).2.onceMode = si.onceMode := by
  obtain ⟨h1, h2, h3, h4, h5, h6, h7, h8, h9, h10⟩ := h
  obtain ⟨icc, iim, ioi, imo, iar⟩ := si
  obtain ⟨mcc, mca, mim, moi, mtr, mti, mom, mus, mpm, mar⟩ := sm
  dsimp only at h1 h2 h3 h4 h5 h6 h7 h8 h9 h10
  subst h1
  subst h2
  subst h3
  subst h6
  subst h7
  subst h8
  unfold IndexLib.mocker MockLib.mocker MockLib.onceStep MockLib.timesStep
    MockLib.untilStep MockLib.mapGet
  dsimp only
  cases i with
  | false =>
    obtain ⟨hcc, honce⟩ := h9 rfl
    subst hcc
    subst honce
    cases ioi with
    | some r =>
      refine ⟨rfl, ⟨rfl, rfl, rfl, h4, h5, rfl, rfl, rfl, ?_, ?_⟩, rfl⟩
      · intro hx
        exact absurd hx (by simp)
      · intro _
        exact ⟨rfl, Nat.le_refl 1⟩
    | none =>
      refine ⟨?_, ⟨rfl, rfl, rfl, h4, h5, rfl, rfl, rfl, ?_, ?_⟩, rfl⟩
      · exact resolveArgRules_eq args _ _ rfl rfl
      · intro hx
        exact absurd hx (by simp)
      · intro _
        exact ⟨rfl, Nat.le_refl 1⟩
  | true =>
    obtain ⟨hnone, hge⟩ := h10 rfl
    subst hnone
    have hne : ¬ (icc + 1 = 1) := by omega
    rw [if_neg hne]
    refine ⟨?_, ⟨rfl, rfl, rfl, h4, h5, rfl, rfl, rfl, ?_, ?_⟩, rfl⟩
    · exact resolveArgRules_eq args _ _ rfl rfl
    · intro hx
      exact absurd hx (by simp)
    · intro _
      exact ⟨rfl, Nat.succ_le_succ (Nat.zero_le icc)⟩

lemma index_install_once (r0 : MockLib.Rule) (si : IndexLib.IndexState)
    (hmo : si.onceMode = true) :
    IndexLib.installRule r0 si =
      { si with onceImplementation := some r0, onceMode := false } := by
  unfold IndexLib.installRule
  rw [hmo]
  rfl

lemma index_install_plain (r0 : MockLib.Rule) (si : IndexLib.IndexState)
    (hmo : si.onceMode = false) :
    IndexLib.installRule r0 si = { si with implementation := r0 } := by
  unfold IndexLib.installRule
  rw [hmo]
  rfl

lemma mock_install_once (r0 : MockLib.Rule) (sm : MockLib.StubState Unit)
    (hpm : sm.pendingMode = some .once) :
    MockLib.installRule r0 sm =
      { sm with onceImplementation := some r0, pendingMode := none } := by
  unfold MockLib.installRule
  rw [hpm]

lemma mock_install_plain (r0 : MockLib.Rule) (sm : MockLib.StubState Unit)
    (hpm : sm.pendingMode = none) :
    MockLib.installRule r0 sm = { sm with implementation := r0 } := by
  unfold MockLib.installRule
  rw [hpm]

lemma terminal_rel (r0 : MockLib.Rule) (i : Bool) (si : IndexLib.IndexState)
    (sm : MockLib.StubState Unit) (h : Rel i si sm)
    (hpi : (si.onceMode && i) = false) :
    Rel i (IndexLib.installRule r0 si) (MockLib.installRule r0 sm) ∧
    (IndexLib.installRule r0 si).onceMode = false := by
  obtain ⟨h1, h2, h3, h4, h5, h6, h7, h8, h9, h10⟩ := h
  cases hmo : si.onceMode with
  | true =>
    have hpm : sm.pendingMode = some .once := h4.mp hmo
    have hi : i = false := by
      rw [hmo, Bool.true_and] at hpi
      exact hpi
    subst hi
    rw [index_install_once r0 si hmo, mock_install_once r0 sm hpm]
    refine ⟨⟨h1, h2, h3, ?_, Or.inl rfl, h6, h7, h8, ?_, ?_⟩, rfl⟩
    · constructor
      · intro hx
        exact absurd hx (by simp)
      · intro hx
        exact absurd hx (by simp)
    · intro _
      exact ⟨(h9 rfl).1, rfl⟩
    · intro hx
      exact absurd hx (by simp)
  | false =>
    have hpm : sm.pendingMode = none := by
      rcases h5 with h | h
      · exact h
      · exact absurd (h4.mpr h) (by rw [hmo]; simp)
    rw [index_install_plain r0 si hmo, mock_install_plain r0 sm hpm]
    refine ⟨⟨h1, rfl, h3, ?_, Or.inl hpm, h6, h7, h8, ?_, ?_⟩, hmo⟩
    · constructor
      · intro hx
        rw [hmo] at hx
        exact absurd hx (by simp)
      · intro hx
        have hx2 : sm.pendingMode = some .once := hx
        rw [hpm] at hx2
        exact absurd hx2 (by simp)
    · intro hx
      exact h9 hx
    · intro hx
      exact ⟨(h10 hx).1, (h10 hx).2⟩

lemma runFrom_eq (orig : List MockLib.JVal → Except String MockLib.JVal)
    (ops : List SharedOp) :
    ∀ (r i : Bool) (si : IndexLib.IndexState) (sm : MockLib.StubState Unit),
      Rel i si sm → sharedOk r i si.onceMode ops = true →
      runIndexFrom orig ops (si, r) = runMockFrom orig ops (sm, r) := by
  induction ops with
  | nil =>
    intro r i si sm hrel hok
    rfl
  | cons op rest ih =>
    intro r i si sm hrel hok
    rw [runIndexFrom_cons, runMockFrom_cons]
    cases op with
    | onceS =>
      simp only [sharedOk] at hok
      rw [Bool.and_eq_true, Bool.not_eq_true'] at hok
      obtain ⟨hi, hok2⟩ := hok
      subst hi
      obtain ⟨h1, h2, h3, h4, h5, h6, h7, h8, h9, h10⟩ := hrel
      show ([] : List Obs) ++ runIndexFrom orig rest (IndexLib.once si, r) =
        ([] : List Obs) ++ runMockFrom orig rest (MockLib.once sm, r)
      rw [List.nil_append, List.nil_append]
      apply ih r false (IndexLib.once si) (MockLib.once sm)
      · refine ⟨h1, h2, h3, ⟨fun _ => rfl, fun _ => rfl⟩, Or.inr rfl, h6, h7, h8,
          fun _ => h9 rfl, ?_⟩
        intro hx
        exact absurd hx (by simp)
      · exact hok2
    | returnsS v =>
      simp only [sharedOk] at hok
      rw [Bool.and_eq_true, Bool.not_eq_true'] at hok
      obtain ⟨hpi, hok2⟩ := hok
      obtain ⟨hrel2, hmode⟩ := terminal_rel (.returns v) i si sm hrel hpi
      show ([] : List Obs) ++ runIndexFrom orig rest (IndexLib.returns v si, r) =
        ([] : List Obs) ++ runMockFrom orig rest (MockLib.returns v sm, r)
      rw [List.nil_append, List.nil_append]
      apply ih r i (IndexLib.returns v si) (MockLib.returns v sm) hrel2
      show sharedOk r i (IndexLib.installRule (.returns v) si).onceMode rest = true
      rw [hmode]
      exact hok2
    | throwsS e =>
      simp only [sharedOk] at hok
      rw [Bool.and_eq_true, Bool.not_eq_true'] at hok
      obtain ⟨hpi, hok2⟩ := hok
      obtain ⟨hrel2, hmode⟩ := terminal_rel (.throws e) i si sm hrel hpi
      show ([] : List Obs) ++ runIndexFrom orig rest (IndexLib.throws e si, r) =
        ([] : List Obs) ++ runMockFrom orig rest (MockLib.throws e sm, r)
      rw [List.nil_append, List.nil_append]
      apply ih r i (IndexLib.throws e si) (MockLib.throws e sm) hrel2
      show sharedOk r i (IndexLib.installRule (.throws e) si).onceMode rest = true
      rw [hmode]
      exact hok2
    | resolvesS v =>
      simp only [sharedOk] at hok
      rw [Bool.and_eq_true, Bool.not_eq_true'] at hok
      obtain ⟨hpi, hok2⟩ := hok
      obtain ⟨hrel2, hmode⟩ := terminal_rel (.resolves v) i si sm hrel hpi
      show ([] : List Obs) ++ runIndexFrom orig rest (IndexLib.resolves v si, r) =
        ([] : List Obs) ++ runMockFrom orig rest (MockLib.resolves v sm, r)
      rw [List.nil_append, List.nil_append]
      apply ih r i (IndexLib.resolves v si) (MockLib.resolves v sm) hrel2
      show sharedOk r i (IndexLib.installRule (.resolves v) si).onceMode rest = true
      rw [hmode]
      exact hok2
    | withArgsReturnsS ex v =>
      obtain ⟨h1, h2, h3, h4, h5, h6, h7, h8, h9, h10⟩ := hrel
      simp only [sharedOk] at hok
      show ([] : List Obs) ++
          runIndexFrom orig rest (IndexLib.withArgsReturns ex v si, r) =
        ([] : List Obs) ++ runMockFrom orig rest (MockLib.withArgsReturns ex v sm, r)
      rw [List.nil_append, List.nil_append]
      apply ih r i (IndexLib.withArgsReturns ex v si) (MockLib.withArgsReturns ex v sm)
      · refine ⟨h1, h2, ?_, h4, h5, h6, h7, h8, fun hx => h9 hx, fun hx => h10 hx⟩
        show si.argRules ++ [(ex, .returns v)] = sm.argRules ++ [(ex, .returns v)]
        rw [h3]
      · exact hok
    | withArgsThrowsS ex e =>
      obtain ⟨h1, h2, h3, h4, h5, h6, h7, h8, h9, h10⟩ := hrel
      simp only [sharedOk] at hok
      show ([] : List Obs) ++
          runIndexFrom orig rest (IndexLib.withArgsThrows ex e si, r) =
        ([] : List Obs) ++ runMockFrom orig rest (MockLib.withArgsThrows ex e sm, r)
      rw [List.nil_append, List.nil_append]
      apply ih r i (IndexLib.withArgsThrows ex e si) (MockLib.withArgsThrows ex e sm)
      · refine ⟨h1, h2, ?_, h4, h5, h6, h7, h8, fun hx => h9 hx, fun hx => h10 hx⟩
        show si.argRules ++ [(ex, .throws e)] = sm.argRules ++ [(ex, .throws e)]
        rw [h3]
      · exact hok
    | withArgsResolvesS ex v =>
      obtain ⟨h1, h2, h3, h4, h5, h6, h7, h8, h9, h10⟩ := hrel
      simp only [sharedOk] at hok
      show ([] : List Obs) ++
          runIndexFrom orig rest (IndexLib.withArgsResolves ex v si, r) =
        ([] : List Obs) ++ runMockFrom orig rest (MockLib.withArgsResolves ex v sm, r)
      rw [List.nil_append, List.nil_append]
      apply ih r i (IndexLib.withArgsResolves ex v si) (MockLib.withArgsResolves ex v sm)
      · refine ⟨h1, h2, ?_, h4, h5, h6, h7, h8, fun hx => h9 hx, fun hx => h10 hx⟩
        show si.argRules ++ [(ex, .resolves v)] = sm.argRules ++ [(ex, .resolves v)]
        rw [h3]
      · exact hok
    | calledS =>
      simp only [sharedOk] at hok
      show [Obs.count (IndexLib.called si)] ++ runIndexFrom orig rest (si, r) =
        [Obs.count (MockLib.called sm)] ++ runMockFrom orig rest (sm, r)
      rw [show IndexLib.called si = MockLib.called sm from hrel.1]
      rw [ih r i si sm hrel hok]
    | restoreS =>
      simp only [sharedOk] at hok
      show ([] : List Obs) ++ runIndexFrom orig rest (si, true) =
        ([] : List Obs) ++ runMockFrom orig rest (sm, true)
      rw [List.nil_append, List.nil_append]
      exact ih true i si sm hrel hok
    | invokeS args =>
      simp only [sharedOk] at hok
      cases r with
      | true =>
        simp only [Bool.not_true, Bool.or_false] at hok
        show [Obs.res (orig args)] ++ runIndexFrom orig rest (si, true) =
          [Obs.res (orig args)] ++ runMockFrom orig rest (sm, true)
        rw [ih true i si sm hrel hok]
      | false =>
        simp only [Bool.not_false, Bool.or_true] at hok
        obtain ⟨hres, hrel2, hmode⟩ := mocker_rel args i si sm hrel
        show [Obs.res (IndexLib.mocker args si).1] ++
            runIndexFrom orig rest ((IndexLib.mocker args si).2, false) =
          [Obs.res (MockLib.mocker () args sm).1] ++
            runMockFrom orig rest ((MockLib.mocker () args sm).2, false)
        rw [hres]
        rw [ih false true (IndexLib.mocker args si).2 (MockLib.mocker () args sm).2
          hrel2 (by rw [hmode]; exact hok)]

/-- Claim C10 (amended): the index.ts and mock.ts implementations are
observationally equivalent on their shared public surface (once, withArgs,
returns, throws, resolves, called, restore, and invocation of the replaced
method) for every trace whose once-armings — a `once()` call and the
terminal that consumes it — complete before the first invocation; they
diverge otherwise, because index.ts's once rule fires only on the very
first call ever made. -/
theorem C10_index_mock_equiv (orig : List MockLib.JVal → Except String MockLib.JVal)
    (ops : List SharedOp) (hok : sharedOk false false false ops = true) :
    runIndex orig ops = runMock orig ops := by
  apply runFrom_eq orig ops false false IndexLib.initIndex MockLib.initStub
  · refine ⟨rfl, rfl, rfl, ?_, Or.inl rfl, rfl, rfl, rfl, fun _ => ⟨rfl, rfl⟩, ?_⟩
    · constructor
      · intro hx
        exact absurd hx (by simp [IndexLib.initIndex])
      · intro hx
        exact absurd hx (by simp [MockLib.initStub])
    · intro hx
      exact absurd hx (by simp)
  · exact hok

/-- Witness for C10 on a trace arming `once()` before any call, then
calling, inspecting and restoring. -/
theorem C10_index_mock_equiv_witness :
    sharedOk false false false goodTrace = true ∧
    runIndex orig0 goodTrace = runMock orig0 goodTrace ∧
    runMock orig0 goodTrace =
      [.res (.ok (.str "B")), .res (.ok (.str "D")), .count 2,
       .res (.ok (.num 7))] := by
  refine ⟨by decide, ?_, by decide⟩
  exact C10_index_mock_equiv orig0 goodTrace (by decide)

/-- Counterexample to C10 as stated: one call, then `once()` → B, then a
second call. index.ts — whose once rule fires only when the call is the
very first — yields the default `undefined` on the second call, while
mock.ts fires the newly armed once rule and yields B. -/
theorem C10_counterexample :
    runIndex orig0 onceAfterCallTrace =
      [.res (.ok .undefined), .res (.ok .undefined)] ∧
    runMock orig0 onceAfterCallTrace =
      [.res (.ok .undefined), .res (.ok (.str "B"))] ∧
    runIndex orig0 onceAfterCallTrace ≠ runMock orig0 onceAfterCallTrace := by
  exact ⟨rfl, rfl, by decide⟩

end Shared
